import Mathlib

/-!
Verification development for the HireAI resume and job-description matching
and scoring engine, together with the frontend analysis components found in
src/components.  The backend engine (a Flask app.py, referenced by the
README and called by the frontend at the rate_resumes endpoint) is not part
of the given sources, so the engine-side definitions are modelled from the
specification; the frontend definitions are translated from the TypeScript
components.  JavaScript numbers are modelled as rationals and JavaScript
strings, where character-level processing matters, as lists of characters.
-/

namespace HireAI

/-- Clamp of a rational value into the closed interval from lo to hi,
as used in the overall-score formula of the spec. -/
def clamp (lo hi x : ℚ) : ℚ := max lo (min hi x)

/-- Modelled from the spec: the Matcher (backend/app.py, absent from the given
sources).  A required keyword is matched when its normalized phrase appears
verbatim in the resume token/phrase list (exact match), or when the static,
externally supplied synonym table maps it to a form present in the resume
(fuzzy stem/synonym match). -/
def kwMatched (resumeTokens : List String) (syn : List (String × String))
    (kw : String) : Bool :=
  resumeTokens.contains kw ||
    syn.any (fun p => p.1 == kw && resumeTokens.contains p.2)

/-- KeywordAnalysis record, following the data model of the spec and the
keyword_analysis object of the frontend AnalysisResult interface. -/
structure KeywordAnalysis where
  matching_keywords : List String
  missing_keywords : List String
  keyword_density : List (String × Nat)
  total_job_keywords : Nat
  total_matched : Nat
  match_percentage : ℚ
deriving Repr, DecidableEq

/-- Modelled from the spec: the Matcher contract (backend/app.py, absent from
the given sources).  The required keywords are deduplicated first, so the
match percentage is computed on unique required keywords, not on total
occurrences; when the required set is empty the match percentage is zero. -/
def matchResume (resumeTokens : List String) (syn : List (String × String))
    (required : List String) : KeywordAnalysis :=
  let req := required.dedup
  let matched := req.filter (fun k => kwMatched resumeTokens syn k)
  let missing := req.filter (fun k => !(kwMatched resumeTokens syn k))
  { matching_keywords := matched
    missing_keywords := missing
    keyword_density := matched.map (fun k => (k, resumeTokens.count k))
    total_job_keywords := req.length
    total_matched := matched.length
    match_percentage :=
      if req.length = 0 then 0
      else (matched.length : ℚ) / (req.length : ℚ) * 100 }

/-- Modelled from the spec: skill_match is the match percentage of the
keyword analysis. -/
def skillMatch (ka : KeywordAnalysis) : ℚ := ka.match_percentage

/-- Modelled from the spec: the density normalization constant, calibrated so
that a matched keyword appearing about three times yields the full bonus. -/
def densityNorm : ℚ := 3

/-- Mean occurrence count of the matched keywords in the resume. -/
def avgMatchedFrequency (density : List (String × Nat)) : ℚ :=
  if density.length = 0 then 0
  else ((density.map (fun p => (p.2 : ℚ))).sum) / (density.length : ℚ)

/-- Modelled from the spec: the keyword density bonus, hard-capped at 10. -/
def keywordDensityBonus (density : List (String × Nat)) : ℚ :=
  min 10 (10 * avgMatchedFrequency density / densityNorm)

/-- Modelled from the spec: the Semantic Similarity Estimator returns
100 * max(0, cosine_similarity); the cosine itself comes from the injected
embedding backend. -/
def similarityScore (cos : ℚ) : ℚ := 100 * max 0 cos

/-- ScoreBreakdown record of the spec data model, also the score_breakdown
object of the frontend AnalysisResult interface. -/
structure ScoreBreakdown where
  skill_match : ℚ
  semantic_similarity : ℚ
  keyword_density_bonus : ℚ
deriving Repr, DecidableEq

/-- The weighted sum 0.6 * skill_match + 0.3 * semantic_similarity +
keyword_density_bonus from the spec scoring formula. -/
def weightedTotal (b : ScoreBreakdown) : ℚ :=
  6/10 * b.skill_match + 3/10 * b.semantic_similarity + b.keyword_density_bonus

/-- Modelled from the spec: overall_score = round(clamp(weighted total, 0, 100)). -/
def overallScore (b : ScoreBreakdown) : ℤ :=
  round (clamp 0 100 (weightedTotal b))

/-- Modelled from the spec: the Scorer assembles the breakdown from the
keyword analysis and the similarity estimate. -/
def scoreBreakdownOf (ka : KeywordAnalysis) (cos : ℚ) : ScoreBreakdown :=
  { skill_match := skillMatch ka
    semantic_similarity := similarityScore cos
    keyword_density_bonus := keywordDensityBonus ka.keyword_density }

/-- Importance tiers of a skill gap. -/
inductive Importance where
  | high
  | medium
  | low
deriving Repr, DecidableEq

/-- Serialized text of an importance tier. -/
def importanceText : Importance → String
  | .high => "high"
  | .medium => "medium"
  | .low => "low"

/-- SkillGap record of the spec data model: an unmatched required keyword
with an importance tier and suggested resources. -/
structure SkillGap where
  skill : String
  importance : Importance
  resources : List String
deriving Repr, DecidableEq

/-- From the AnalysisResult interface of interview-prep-section.tsx: the
skill_gaps field of the response is an object that wraps the actual gap list
under a nested skill_gaps key. -/
structure SkillGapsObj where
  skill_gaps : List SkillGap
deriving Repr, DecidableEq

/-- The four status levels of the ats_status field. -/
inductive StatusLevel where
  | high
  | medium
  | low_medium
  | low
deriving Repr, DecidableEq

/-- Modelled from the spec: status derivation as a pure function of the
overall score; the thresholds also appear in getScoreColor in
interview-prep-section.tsx. -/
def statusLevel (s : ℤ) : StatusLevel :=
  if s ≥ 85 then .high
  else if s ≥ 70 then .medium
  else if s ≥ 50 then .low_medium
  else .low

/-- From interview-prep-section.tsx: getScoreColor maps a score to a color
class using the same thresholds as the status derivation. -/
def getScoreColor (score : ℤ) : String :=
  if score ≥ 85 then "text-green-600 dark:text-green-400"
  else if score ≥ 70 then "text-yellow-600 dark:text-yellow-400"
  else if score ≥ 50 then "text-orange-600 dark:text-orange-400"
  else "text-red-600 dark:text-red-400"

/-- Human readable label carried next to the status level. -/
def statusLabel : StatusLevel → String
  | .high => "Excellent Match"
  | .medium => "Good Match"
  | .low_medium => "Fair Match"
  | .low => "Low Match"

/-- The ats_status object of the response. -/
structure AtsStatus where
  level : StatusLevel
  label : String
deriving Repr, DecidableEq

/-- MatchResult, the sole output of the engine, following the response shape
of the spec with the skill_gaps nesting of the frontend interface. -/
structure MatchResult where
  score : ℤ
  summary : String
  ats_status : AtsStatus
  score_breakdown : ScoreBreakdown
  keyword_analysis : KeywordAnalysis
  recommendations : List String
  skill_gaps : SkillGapsObj
deriving Repr, DecidableEq

/-- Modelled from the spec: the Skill Gap Analyzer tier assignment by thirds
of the ordered missing-keyword list (top third high, middle third medium,
rest low). -/
def tierOfIndex (n i : Nat) : Importance :=
  if 3 * i < n then .high
  else if 3 * i < 2 * n then .medium
  else .low

/-- Modelled from the spec: the Skill Gap Analyzer (backend/app.py, absent
from the given sources).  Unmatched required keywords are tiered by thirds in
their extractor order; unknown keywords receive a generic search-for-courses
resource placeholder. -/
def analyzeGaps (missing : List String) : List SkillGap :=
  ((List.range missing.length).zip missing).map fun p =>
    { skill := p.2
      importance := tierOfIndex missing.length p.1
      resources := ["Search for " ++ p.2 ++ " courses"] }

/-- Modelled from the spec: the Recommendation Composer, deterministic and
template based, capped at six entries. -/
def composeRecommendations (b : ScoreBreakdown) (ka : KeywordAnalysis)
    (gaps : List SkillGap) : List String :=
  let base :=
    (if b.skill_match < 70 then
      ["Add these " ++ toString ka.missing_keywords.length ++
        " missing keywords to your resume"]
     else []) ++
    (if b.semantic_similarity < 60 then
      ["Rephrase experience bullets to better mirror the language of the role"]
     else []) ++
    (gaps.filter (fun g => g.importance == Importance.high)).map
      (fun g => "Develop the high-priority skill " ++ g.skill)
  base.take 6

/-- Modelled from the spec: the stop-word list of the Text Normalizer. -/
def stopWords : List String :=
  ["a", "an", "the", "and", "or", "of", "to", "in", "with", "for", "on"]

/-- Modelled from the spec: the Text Normalizer.  Lower-cases, tokenizes on
word boundaries (keeping alphanumeric and hyphen characters), and removes
stop-words and punctuation; lemmatization and n-gram phrase extraction are
abstracted away.  Empty input yields the empty document. -/
def normalizeTokens (text : String) : List String :=
  ((text.toLower.split (fun c => !(c.isAlphanum || c == '-'))).filter
      (fun w => w ≠ "")).filter
    (fun w => !(stopWords.contains w))

/-- Modelled from the spec: the cap on the required keyword set. -/
def maxRequiredKeywords : Nat := 40

/-- Modelled from the spec: the Keyword Extractor produces a deduplicated
required keyword set capped at a maximum, in first-occurrence order. -/
def extractRequiredKeywords (jobTokens : List String) : List String :=
  jobTokens.dedup.take maxRequiredKeywords

/-- Error envelope of the external interface: an error string with a
non-2xx HTTP status. -/
structure ErrorEnvelope where
  error : String
  status : Nat
deriving Repr, DecidableEq

/-- Modelled from the spec: the InputError envelope returned when both
inputs are empty. -/
def inputErrorBoth : ErrorEnvelope :=
  { error := "InputError: resume text and job description text are both empty"
    status := 400 }

/-- The empty keyword analysis. -/
def emptyKeywordAnalysis : KeywordAnalysis :=
  { matching_keywords := []
    missing_keywords := []
    keyword_density := []
    total_job_keywords := 0
    total_matched := 0
    match_percentage := 0 }

/-- Modelled from the spec: the recovered zero-score, empty-analysis result
with an explanatory summary. -/
def zeroScoreResult (why : String) : MatchResult :=
  { score := 0
    summary := why
    ats_status := { level := statusLevel 0, label := statusLabel (statusLevel 0) }
    score_breakdown :=
      { skill_match := 0, semantic_similarity := 0, keyword_density_bonus := 0 }
    keyword_analysis := emptyKeywordAnalysis
    recommendations := []
    skill_gaps := { skill_gaps := [] } }

/-- A JavaScript-style blank test: the trimmed text is empty exactly when
every character is whitespace, which is how it is phrased here so that it
computes by kernel reduction. -/
def isBlank (s : String) : Bool := s.data.all (fun c => c.isWhitespace)

/-- Modelled from the spec: the analyze entry point (backend/app.py, absent
from the given sources).  When both inputs are empty the request is rejected
with an InputError envelope; when exactly one input is empty a zero-score,
empty-analysis result with an explanatory summary is returned; otherwise the
full pipeline runs, with the embedding estimator injected as a read-only
service. -/
def analyze (estimator : String → String → ℚ) (syn : List (String × String))
    (resume_text job_text : String) : Except ErrorEnvelope MatchResult :=
  if isBlank resume_text && isBlank job_text then
    .error inputErrorBoth
  else if isBlank resume_text then
    .ok (zeroScoreResult "The resume text is empty, so no analysis could be performed.")
  else if isBlank job_text then
    .ok (zeroScoreResult "The job description text is empty, so no analysis could be performed.")
  else
    let resumeToks := normalizeTokens resume_text
    let required := extractRequiredKeywords (normalizeTokens job_text)
    let ka := matchResume resumeToks syn required
    let b := scoreBreakdownOf ka (estimator resume_text job_text)
    let sc := overallScore b
    let gaps := analyzeGaps ka.missing_keywords
    .ok { score := sc
          summary := "Your resume was scored against the job description keyword set."
          ats_status := { level := statusLevel sc, label := statusLabel (statusLevel sc) }
          score_breakdown := b
          keyword_analysis := ka
          recommendations := composeRecommendations b ka gaps
          skill_gaps := { skill_gaps := gaps } }

lemma matchResume_match_percentage_def (resumeTokens : List String)
    (syn : List (String × String)) (required : List String) :
    (matchResume resumeTokens syn required).match_percentage =
      if required.dedup.length = 0 then 0
      else ((required.dedup.filter (fun k => kwMatched resumeTokens syn k)).length : ℚ) /
        (required.dedup.length : ℚ) * 100 := rfl

lemma match_percentage_nonneg (resumeTokens : List String)
    (syn : List (String × String)) (required : List String) :
    0 ≤ (matchResume resumeTokens syn required).match_percentage := by
  rw [matchResume_match_percentage_def]
  split_ifs with h
  · exact le_refl 0
  · positivity

lemma match_percentage_le_100 (resumeTokens : List String)
    (syn : List (String × String)) (required : List String) :
    (matchResume resumeTokens syn required).match_percentage ≤ 100 := by
  rw [matchResume_match_percentage_def]
  split_ifs with h
  · norm_num
  · have hm : (required.dedup.filter (fun k => kwMatched resumeTokens syn k)).length ≤
        required.dedup.length := List.length_filter_le _ _
    have ht : (0 : ℚ) < (required.dedup.length : ℚ) := by
      exact_mod_cast Nat.pos_of_ne_zero h
    have hdiv : ((required.dedup.filter (fun k => kwMatched resumeTokens syn k)).length : ℚ) /
        (required.dedup.length : ℚ) ≤ 1 := by
      rw [div_le_one ht]
      exact_mod_cast hm
    calc ((required.dedup.filter (fun k => kwMatched resumeTokens syn k)).length : ℚ) /
        (required.dedup.length : ℚ) * 100 ≤ 1 * 100 := by
          exact mul_le_mul_of_nonneg_right hdiv (by norm_num)
      _ = 100 := by norm_num

lemma keywordDensityBonus_nonneg (density : List (String × Nat)) :
    0 ≤ keywordDensityBonus density := by
  unfold keywordDensityBonus
  apply le_min (by norm_num)
  have havg : 0 ≤ avgMatchedFrequency density := by
    unfold avgMatchedFrequency
    split_ifs with h
    · exact le_refl 0
    · apply div_nonneg _ (by positivity)
      apply List.sum_nonneg
      intro x hx
      obtain ⟨p, _, rfl⟩ := List.mem_map.mp hx
      positivity
  unfold densityNorm
  positivity

lemma keywordDensityBonus_le_10 (density : List (String × Nat)) :
    keywordDensityBonus density ≤ 10 := min_le_left _ _

/-- Claim C1: in every produced score breakdown, skill_match lies in [0, 100],
semantic_similarity lies in [0, 100], keyword_density_bonus lies in [0, 10]
regardless of how often matched keywords repeat, and the overall score equals
round(clamp(0.6 * skill_match + 0.3 * semantic_similarity +
keyword_density_bonus, 0, 100)). -/
theorem ats_score_breakdown_invariant (resumeTokens : List String)
    (syn : List (String × String)) (required : List String) (cos : ℚ)
    (hcos : cos ≤ 1) :
    (0 ≤ (scoreBreakdownOf (matchResume resumeTokens syn required) cos).skill_match ∧
      (scoreBreakdownOf (matchResume resumeTokens syn required) cos).skill_match ≤ 100) ∧
    (0 ≤ (scoreBreakdownOf (matchResume resumeTokens syn required) cos).semantic_similarity ∧
      (scoreBreakdownOf (matchResume resumeTokens syn required) cos).semantic_similarity ≤ 100) ∧
    (0 ≤ (scoreBreakdownOf (matchResume resumeTokens syn required) cos).keyword_density_bonus ∧
      (scoreBreakdownOf (matchResume resumeTokens syn required) cos).keyword_density_bonus ≤ 10) ∧
    overallScore (scoreBreakdownOf (matchResume resumeTokens syn required) cos) =
      round (clamp 0 100
        (6/10 * (scoreBreakdownOf (matchResume resumeTokens syn required) cos).skill_match +
         3/10 * (scoreBreakdownOf (matchResume resumeTokens syn required) cos).semantic_similarity +
         (scoreBreakdownOf (matchResume resumeTokens syn required) cos).keyword_density_bonus)) := by
  refine ⟨⟨?_, ?_⟩, ⟨?_, ?_⟩, ⟨?_, ?_⟩, rfl⟩
  · exact match_percentage_nonneg resumeTokens syn required
  · exact match_percentage_le_100 resumeTokens syn required
  · show 0 ≤ similarityScore cos
    unfold similarityScore
    positivity
  · show similarityScore cos ≤ 100
    unfold similarityScore
    have : max 0 cos ≤ 1 := max_le (by norm_num) hcos
    calc 100 * max 0 cos ≤ 100 * 1 := by
          exact mul_le_mul_of_nonneg_left this (by norm_num)
      _ = 100 := by norm_num
  · exact keywordDensityBonus_nonneg _
  · exact keywordDensityBonus_le_10 _

/-- Witness for C1 at a concrete resume, synonym table, keyword set and
cosine value. -/
theorem ats_score_breakdown_invariant_witness :
    ((1 : ℚ) / 2 ≤ 1) ∧
    (0 ≤ (scoreBreakdownOf (matchResume ["python", "sql"] [] ["python", "aws"]) (1/2)).skill_match ∧
      (scoreBreakdownOf (matchResume ["python", "sql"] [] ["python", "aws"]) (1/2)).skill_match ≤ 100) := by
  have h := ats_score_breakdown_invariant ["python", "sql"] [] ["python", "aws"] (1/2)
    (by norm_num)
  exact ⟨by norm_num, h.1⟩

/-- Claim C2: the match percentage equals total_matched / total_job_keywords
* 100 computed over unique required keywords, and an empty required set gives
match percentage zero and skill match zero regardless of resume content. -/
theorem match_percentage_unique_and_empty (resumeTokens : List String)
    (syn : List (String × String)) (required : List String) :
    (matchResume resumeTokens syn required).total_job_keywords = required.dedup.length ∧
    (matchResume resumeTokens syn required).total_matched =
      (required.dedup.filter (fun k => kwMatched resumeTokens syn k)).length ∧
    (matchResume resumeTokens syn required).match_percentage =
      (if (matchResume resumeTokens syn required).total_job_keywords = 0 then 0
       else ((matchResume resumeTokens syn required).total_matched : ℚ) /
         ((matchResume resumeTokens syn required).total_job_keywords : ℚ) * 100) ∧
    (matchResume resumeTokens syn []).match_percentage = 0 ∧
    skillMatch (matchResume resumeTokens syn []) = 0 := by
  refine ⟨rfl, rfl, rfl, rfl, rfl⟩

/-- Claim C3: for every non-empty required keyword set the match percentage
lies between 0 and 100, and it equals 100 exactly when every required keyword
is matched in the resume. -/
theorem match_percentage_bounds_iff_all_matched (resumeTokens : List String)
    (syn : List (String × String)) (required : List String)
    (hne : required ≠ []) :
    0 ≤ (matchResume resumeTokens syn required).match_percentage ∧
    (matchResume resumeTokens syn required).match_percentage ≤ 100 ∧
    ((matchResume resumeTokens syn required).match_percentage = 100 ↔
      ∀ k ∈ required, kwMatched resumeTokens syn k = true) := by
  have hd : required.dedup ≠ [] := by
    simpa [List.dedup_eq_nil] using hne
  have hlen : required.dedup.length ≠ 0 := by
    simpa [List.length_eq_zero] using hd
  have ht : (0 : ℚ) < (required.dedup.length : ℚ) := by
    exact_mod_cast Nat.pos_of_ne_zero hlen
  refine ⟨match_percentage_nonneg _ _ _, match_percentage_le_100 _ _ _, ?_⟩
  rw [matchResume_match_percentage_def, if_neg hlen]
  constructor
  · intro h100 k hk
    have h1 : ((required.dedup.filter (fun k => kwMatched resumeTokens syn k)).length : ℚ) /
        (required.dedup.length : ℚ) * 100 = 1 * 100 := by
      rw [h100]; norm_num
    have hdiv : ((required.dedup.filter (fun k => kwMatched resumeTokens syn k)).length : ℚ) /
        (required.dedup.length : ℚ) = 1 := mul_right_cancel₀ (by norm_num) h1
    have hlen_eq : (required.dedup.filter (fun k => kwMatched resumeTokens syn k)).length =
        required.dedup.length := by
      have := (div_eq_one_iff_eq (ne_of_gt ht)).mp hdiv
      exact_mod_cast this
    have hall := List.filter_length_eq_length.mp hlen_eq
    exact hall k (List.mem_dedup.mpr hk)
  · intro hall
    have hlen_eq : (required.dedup.filter (fun k => kwMatched resumeTokens syn k)).length =
        required.dedup.length := by
      apply List.filter_length_eq_length.mpr
      intro a ha
      exact hall a (List.mem_dedup.mp ha)
    rw [hlen_eq, div_self (ne_of_gt ht)]
    norm_num

/-- Witness for C3 at a concrete non-empty required keyword set. -/
theorem match_percentage_bounds_iff_all_matched_witness :
    0 ≤ (matchResume ["python"] [] ["python"]).match_percentage ∧
    (matchResume ["python"] [] ["python"]).match_percentage ≤ 100 ∧
    ((matchResume ["python"] [] ["python"]).match_percentage = 100 ↔
      ∀ k ∈ ["python"], kwMatched ["python"] [] k = true) :=
  match_percentage_bounds_iff_all_matched ["python"] [] ["python"] (by simp)

/-- Claim C4: the status level is a pure function of the overall score alone:
high when the score is at least 85, medium when it is in [70, 85), low_medium
when it is in [50, 70), and low otherwise; getScoreColor in
interview-prep-section.tsx brackets scores by the same thresholds. -/
theorem statusLevel_pure_thresholds (s : ℤ) :
    (statusLevel s = StatusLevel.high ↔ 85 ≤ s) ∧
    (statusLevel s = StatusLevel.medium ↔ 70 ≤ s ∧ s < 85) ∧
    (statusLevel s = StatusLevel.low_medium ↔ 50 ≤ s ∧ s < 70) ∧
    (statusLevel s = StatusLevel.low ↔ s < 50) ∧
    (statusLevel s = StatusLevel.high ↔
      getScoreColor s = "text-green-600 dark:text-green-400") ∧
    (statusLevel s = StatusLevel.medium ↔
      getScoreColor s = "text-yellow-600 dark:text-yellow-400") ∧
    (statusLevel s = StatusLevel.low_medium ↔
      getScoreColor s = "text-orange-600 dark:text-orange-400") ∧
    (statusLevel s = StatusLevel.low ↔
      getScoreColor s = "text-red-600 dark:text-red-400") := by
  unfold statusLevel getScoreColor
  split_ifs with h1 h2 h3 <;>
    refine ⟨?_, ?_, ?_, ?_, ?_, ?_, ?_, ?_⟩ <;> simp <;> omega

lemma round_clamp_mono {x y : ℚ} (h : x ≤ y) :
    round (clamp 0 100 x) ≤ round (clamp 0 100 y) := by
  rw [round_eq, round_eq]
  apply Int.floor_le_floor
  have : clamp 0 100 x ≤ clamp 0 100 y :=
    max_le_max (le_refl 0) (min_le_min (le_refl 100) h)
  linarith

/-- Claim C5: the overall score is monotonically non-decreasing in each of
skill_match, semantic_similarity and keyword_density_bonus when the other
two components are held fixed. -/
theorem overallScore_monotone (sm sm2 ss ss2 kd kd2 : ℚ) :
    (sm ≤ sm2 →
      overallScore ⟨sm, ss, kd⟩ ≤ overallScore ⟨sm2, ss, kd⟩) ∧
    (ss ≤ ss2 →
      overallScore ⟨sm, ss, kd⟩ ≤ overallScore ⟨sm, ss2, kd⟩) ∧
    (kd ≤ kd2 →
      overallScore ⟨sm, ss, kd⟩ ≤ overallScore ⟨sm, ss, kd2⟩) := by
  refine ⟨fun h => ?_, fun h => ?_, fun h => ?_⟩ <;>
    · unfold overallScore weightedTotal
      apply round_clamp_mono
      dsimp only
      linarith

/-- Witness for C5 at concrete component values. -/
theorem overallScore_monotone_witness :
    (overallScore ⟨50, 60, 5⟩ ≤ overallScore ⟨80, 60, 5⟩) ∧
    (overallScore ⟨50, 60, 5⟩ ≤ overallScore ⟨50, 90, 5⟩) ∧
    (overallScore ⟨50, 60, 5⟩ ≤ overallScore ⟨50, 60, 9⟩) :=
  ⟨(overallScore_monotone 50 80 60 90 5 9).1 (by norm_num),
   (overallScore_monotone 50 80 60 90 5 9).2.1 (by norm_num),
   (overallScore_monotone 50 80 60 90 5 9).2.2 (by norm_num)⟩

/-- Claim C7: when both the resume text and the job description text are
empty, analyze rejects the request with an InputError surfaced as an error
envelope with a non-2xx status; when exactly one of the two inputs is empty,
analyze does not fail hard but returns a zero-score, empty-analysis result
with an explanatory summary. -/
theorem analyze_empty_input_handling (estimator : String → String → ℚ)
    (syn : List (String × String)) (resume job : String) :
    (isBlank resume = true → isBlank job = true →
      analyze estimator syn resume job = Except.error inputErrorBoth ∧
      inputErrorBoth.error ≠ "" ∧
      ¬(200 ≤ inputErrorBoth.status ∧ inputErrorBoth.status < 300)) ∧
    (isBlank resume ≠ isBlank job →
      ∃ r, analyze estimator syn resume job = Except.ok r ∧
        r.score = 0 ∧
        r.keyword_analysis = emptyKeywordAnalysis ∧
        r.skill_gaps = ⟨[]⟩ ∧
        r.recommendations = [] ∧
        r.summary ≠ "") := by
  constructor
  · intro hr hj
    refine ⟨?_, by decide, by decide⟩
    simp [analyze, hr, hj]
  · intro hne
    cases hr : isBlank resume <;> cases hj : isBlank job
    · rw [hr, hj] at hne; exact absurd rfl hne
    · refine ⟨zeroScoreResult
        "The job description text is empty, so no analysis could be performed.",
        ?_, rfl, rfl, rfl, rfl, by decide⟩
      simp [analyze, hr, hj]
    · refine ⟨zeroScoreResult
        "The resume text is empty, so no analysis could be performed.",
        ?_, rfl, rfl, rfl, rfl, by decide⟩
      simp [analyze, hr, hj]
    · rw [hr, hj] at hne; exact absurd rfl hne

/-- Witness for C7 at concrete inputs: both inputs empty, and only the
resume empty. -/
theorem analyze_empty_input_handling_witness :
    (analyze (fun _ _ => 0) [] "" "" = Except.error inputErrorBoth ∧
      inputErrorBoth.error ≠ "" ∧
      ¬(200 ≤ inputErrorBoth.status ∧ inputErrorBoth.status < 300)) ∧
    (∃ r, analyze (fun _ _ => 0) [] "" "data engineer" = Except.ok r ∧
      r.score = 0 ∧
      r.keyword_analysis = emptyKeywordAnalysis ∧
      r.skill_gaps = ⟨[]⟩ ∧
      r.recommendations = [] ∧
      r.summary ≠ "") :=
  ⟨(analyze_empty_input_handling (fun _ _ => 0) [] "" "").1 (by decide) (by decide),
   (analyze_empty_input_handling (fun _ _ => 0) [] "" "data engineer").2 (by decide)⟩

/-- A small JSON value model for the serialized responses; the JavaScript
JSON string codec is modelled at the level of this tree. -/
inductive Json where
  | str : String → Json
  | num : ℚ → Json
  | arr : List Json → Json
  | obj : List (String × Json) → Json
deriving Repr

/-- Whether a JSON value is an array. -/
def Json.isArr : Json → Bool
  | .arr _ => true
  | _ => false

/-- The member of a JSON object under a key, none for non-objects. -/
def lookupField (j : Json) (key : String) : Option Json :=
  match j with
  | .obj fields => (fields.find? (fun p => p.1 == key)).map (fun p => p.2)
  | _ => none

/-- Encoding of a list of strings. -/
def encodeStrList (l : List String) : Json := .arr (l.map .str)

/-- Encoding of one skill gap entry. -/
def encodeSkillGap (g : SkillGap) : Json :=
  .obj [("skill", .str g.skill),
        ("importance", .str (importanceText g.importance)),
        ("resources", encodeStrList g.resources)]

/-- Serialized text of a status level. -/
def statusLevelText : StatusLevel → String
  | .high => "high"
  | .medium => "medium"
  | .low_medium => "low_medium"
  | .low => "low"

/-- Encoding of the score_breakdown object. -/
def encodeScoreBreakdown (b : ScoreBreakdown) : Json :=
  .obj [("skill_match", .num b.skill_match),
        ("semantic_similarity", .num b.semantic_similarity),
        ("keyword_density_bonus", .num b.keyword_density_bonus)]

/-- Encoding of the keyword_analysis object. -/
def encodeKeywordAnalysis (ka : KeywordAnalysis) : Json :=
  .obj [("matching_keywords", encodeStrList ka.matching_keywords),
        ("missing_keywords", encodeStrList ka.missing_keywords),
        ("keyword_density", .obj (ka.keyword_density.map
          (fun p => (p.1, Json.num (p.2 : ℚ))))),
        ("total_job_keywords", .num (ka.total_job_keywords : ℚ)),
        ("total_matched", .num (ka.total_matched : ℚ)),
        ("match_percentage", .num ka.match_percentage)]

/-- Modelled from the spec and the AnalysisResult interface of
interview-prep-section.tsx: serialization of a MatchResult.  The interface
declares skill_gaps as an object wrapping the gap list under a nested
skill_gaps key, and the rendering code reads
analysisResult.skill_gaps.skill_gaps. -/
def encodeMatchResult (r : MatchResult) : Json :=
  .obj [("score", .num (r.score : ℚ)),
        ("summary", .str r.summary),
        ("ats_status", .obj [("level", .str (statusLevelText r.ats_status.level)),
                             ("label", .str r.ats_status.label)]),
        ("score_breakdown", encodeScoreBreakdown r.score_breakdown),
        ("keyword_analysis", encodeKeywordAnalysis r.keyword_analysis),
        ("recommendations", encodeStrList r.recommendations),
        ("skill_gaps", .obj [("skill_gaps",
          .arr (r.skill_gaps.skill_gaps.map encodeSkillGap))])]

/-- A concrete serialized result used as the counterexample input. -/
def sampleMatchResult : MatchResult :=
  zeroScoreResult "sample"

/-- Counterexample to claim C6: at a concrete MatchResult, the serialized
skill_gaps field is a JSON object (wrapping the list under a nested
skill_gaps key), not itself an ordered list. -/
theorem skill_gaps_field_is_not_a_list :
    lookupField (encodeMatchResult sampleMatchResult) "skill_gaps" =
      some (Json.obj [("skill_gaps", Json.arr [])]) ∧
    Json.isArr (Json.obj [("skill_gaps", Json.arr [])]) = false :=
  ⟨rfl, rfl⟩

/-- Claim C6 as amended: in the serialized MatchResult response, the
skill_gaps field is an object whose own skill_gaps field is the ordered list
of gap objects, each carrying a skill string, an importance drawn from high,
medium or low, and a list of resource strings. -/
theorem skill_gaps_nested_shape (r : MatchResult) (g : SkillGap) :
    lookupField (encodeMatchResult r) "skill_gaps" =
      some (Json.obj [("skill_gaps",
        Json.arr (r.skill_gaps.skill_gaps.map encodeSkillGap))]) ∧
    encodeSkillGap g =
      Json.obj [("skill", Json.str g.skill),
                ("importance", Json.str (importanceText g.importance)),
                ("resources", Json.arr (g.resources.map Json.str))] ∧
    (importanceText g.importance = "high" ∨
      importanceText g.importance = "medium" ∨
      importanceText g.importance = "low") := by
  refine ⟨rfl, rfl, ?_⟩
  cases g.importance
  · exact Or.inl rfl
  · exact Or.inr (Or.inl rfl)
  · exact Or.inr (Or.inr rfl)

/-- Whitespace test for one character, modelling the JavaScript \s class. -/
def isWS (c : Char) : Bool := c.isWhitespace

/-- JavaScript String.prototype.trim modelled on a character list: drop
whitespace from both ends. -/
def trimChars (cs : List Char) : List Char :=
  ((cs.dropWhile isWS).reverse.dropWhile isWS).reverse

/-- Split a character list at every character satisfying p; the separators
are dropped and empty pieces are kept, as JavaScript split does. -/
def splitPred (p : Char → Bool) : List Char → List (List Char)
  | [] => [[]]
  | c :: t =>
    if p c then [] :: splitPred p t
    else
      match splitPred p t with
      | [] => [[c]]
      | l :: ls => (c :: l) :: ls

/-- Join lines back with newline separators. -/
def joinNl : List (List Char) → List Char
  | [] => []
  | [l] => l
  | l :: ls => l ++ '\n' :: joinNl ls

/-- The lines of a character list. -/
def splitLines (cs : List Char) : List (List Char) :=
  splitPred (fun c => c == '\n') cs

/-- Apply a rewrite to every line, modelling a line-anchored global regex
replacement. -/
def mapLines (f : List Char → List Char) (cs : List Char) : List Char :=
  joinNl ((splitLines cs).map f)

/-- One line under the heading regex of cleanResponseFormatting: strip a
leading run of at least one hash and the whitespace after it, else leave the
line unchanged.  The whitespace run is modelled within its line. -/
def stripHeading (l : List Char) : List Char :=
  let rest := l.dropWhile (fun c => c == '#')
  if rest.length < l.length then rest.dropWhile isWS else l

/-- Characters of the list-marker class of the regex. -/
def isListMarkerChar (c : Char) : Bool := c == '-' || c == '+' || c.isDigit

/-- Drop one leading dot if present, for the optional dot of the
list-marker regex. -/
def dropLeadingDot : List Char → List Char
  | '.' :: t => t
  | t => t

/-- One line under the list-marker regex of cleanResponseFormatting: strip
leading whitespace, a run of at least one marker character, an optional dot
and trailing whitespace, else leave the line unchanged. -/
def stripListMarker (l : List Char) : List Char :=
  let afterWS := l.dropWhile isWS
  let afterMark := afterWS.dropWhile isListMarkerChar
  if afterMark.length < afterWS.length then
    (dropLeadingDot afterMark).dropWhile isWS
  else l

/-- Measure a maximal run of newline units, where a unit is a newline
optionally preceded by a carriage return: the run length, the consumed
prefix and the remainder. -/
def nlRun : List Char → Nat × List Char × List Char
  | '\n' :: t =>
    let r := nlRun t
    (r.1 + 1, '\n' :: r.2.1, r.2.2)
  | '\r' :: '\n' :: t =>
    let r := nlRun t
    (r.1 + 1, '\r' :: '\n' :: r.2.1, r.2.2)
  | cs => (0, [], cs)

/-- Fuel-driven body of the newline-collapsing pass: a run of three or more
newline units becomes two newlines; shorter runs are kept verbatim. -/
def collapseNlAux : Nat → List Char → List Char
  | 0, cs => cs
  | _ + 1, [] => []
  | fuel + 1, c :: t =>
    match nlRun (c :: t) with
    | (0, _, _) => c :: collapseNlAux fuel t
    | (n + 1, p, r) =>
      (if 3 ≤ n + 1 then ['\n', '\n'] else p) ++ collapseNlAux fuel r

/-- The newline-collapsing replacement of cleanResponseFormatting. -/
def collapseNl (cs : List Char) : List Char := collapseNlAux cs.length cs

/-- From chat-section.tsx and interview-prep-section.tsx (two identical
copies): cleanResponseFormatting.  Strings are modelled as character lists;
a falsy input is the empty list; the asterisk replacement removes every
asterisk; the two line-anchored regexes act per line; runs of three or more
newlines collapse to two; the result is trimmed. -/
def cleanResponseFormatting (s : List Char) : List Char :=
  if s = [] then []
  else
    let noStars := s.filter (fun c => !(c == '*'))
    let noHeadings := mapLines stripHeading noStars
    let noMarkers := mapLines stripListMarker noHeadings
    trimChars (collapseNl noMarkers)

lemma mem_joinNl {x : Char} {L : List (List Char)} (hx : x ∈ joinNl L) :
    x = '\n' ∨ ∃ l ∈ L, x ∈ l := by
  induction L with
  | nil => simp [joinNl] at hx
  | cons l ls ih =>
    cases ls with
    | nil =>
      refine Or.inr ⟨l, by simp, ?_⟩
      simpa [joinNl] using hx
    | cons l2 ls2 =>
      simp only [joinNl, List.mem_append, List.mem_cons] at hx
      rcases hx with h | h | h
      · exact Or.inr ⟨l, by simp, h⟩
      · exact Or.inl h
      · rcases ih h with h2 | ⟨l3, hl3, hxl3⟩
        · exact Or.inl h2
        · exact Or.inr ⟨l3, List.mem_cons_of_mem _ hl3, hxl3⟩

lemma mem_of_mem_splitPred {p : Char → Bool} {x : Char} :
    ∀ {cs : List Char} {l : List Char}, l ∈ splitPred p cs → x ∈ l → x ∈ cs := by
  intro cs
  induction cs with
  | nil =>
    intro l hl hx
    simp [splitPred] at hl
    subst hl
    simp at hx
  | cons c t ih =>
    intro l hl hx
    simp only [splitPred] at hl
    split at hl
    · rcases List.mem_cons.mp hl with h | h
      · subst h; simp at hx
      · exact List.mem_cons_of_mem _ (ih h hx)
    · rcases hsp : splitPred p t with _ | ⟨l0, ls⟩
      · rw [hsp] at hl
        simp at hl
        subst hl
        simp at hx
        simp [hx]
      · rw [hsp] at hl
        rcases List.mem_cons.mp hl with h | h
        · subst h
          rcases List.mem_cons.mp hx with h2 | h2
          · simp [h2]
          · have : l0 ∈ splitPred p t := by rw [hsp]; exact List.mem_cons_self _ _
            exact List.mem_cons_of_mem _ (ih this h2)
        · have : l ∈ splitPred p t := by rw [hsp]; exact List.mem_cons_of_mem _ h
          exact List.mem_cons_of_mem _ (ih this hx)

lemma dropLeadingDot_subset (l : List Char) : dropLeadingDot l ⊆ l := by
  unfold dropLeadingDot
  split
  · exact List.subset_cons_self _ _
  · exact fun x hx => hx

lemma stripHeading_subset (l : List Char) : stripHeading l ⊆ l := by
  intro x hx
  simp only [stripHeading] at hx
  split at hx
  · exact List.dropWhile_subset _ (List.dropWhile_subset _ hx)
  · exact hx

lemma stripListMarker_subset (l : List Char) : stripListMarker l ⊆ l := by
  intro x hx
  simp only [stripListMarker] at hx
  split at hx
  · have h1 := List.dropWhile_subset (l := dropLeadingDot
      ((l.dropWhile isWS).dropWhile isListMarkerChar)) isWS hx
    have h2 := dropLeadingDot_subset _ h1
    exact List.dropWhile_subset _ (List.dropWhile_subset _ h2)
  · exact hx

lemma mem_mapLines {f : List Char → List Char} (hf : ∀ l, f l ⊆ l)
    {x : Char} {cs : List Char} (hx : x ∈ mapLines f cs) :
    x = '\n' ∨ x ∈ cs := by
  rcases mem_joinNl hx with h | ⟨l, hl, hxl⟩
  · exact Or.inl h
  · rcases List.mem_map.mp hl with ⟨l0, hl0, rfl⟩
    exact Or.inr (mem_of_mem_splitPred hl0 (hf l0 hxl))

lemma nlRun_append (cs : List Char) : (nlRun cs).2.1 ++ (nlRun cs).2.2 = cs := by
  induction cs using nlRun.induct with
  | case1 t ih => simp [nlRun, ih]
  | case2 t ih => simp [nlRun, ih]
  | case3 cs h1 h2 =>
    rw [nlRun.eq_def]
    split
    · simp at h1
    · simp at h2
    · simp

lemma mem_collapseNlAux {x : Char} :
    ∀ {fuel : Nat} {cs : List Char}, x ∈ collapseNlAux fuel cs →
      x = '\n' ∨ x ∈ cs := by
  intro fuel
  induction fuel with
  | zero => intro cs hx; exact Or.inr hx
  | succ fuel ih =>
    intro cs hx
    cases cs with
    | nil => simp [collapseNlAux] at hx
    | cons c t =>
      rw [collapseNlAux] at hx
      rcases hrun : nlRun (c :: t) with ⟨n, p, r⟩
      rw [hrun] at hx
      have happ : p ++ r = c :: t := by
        have := nlRun_append (c :: t)
        rw [hrun] at this
        exact this
      cases n with
      | zero =>
        rcases List.mem_cons.mp hx with h | h
        · exact Or.inr (h ▸ List.mem_cons_self _ _)
        · rcases ih h with h2 | h2
          · exact Or.inl h2
          · exact Or.inr (List.mem_cons_of_mem _ h2)
      | succ n =>
        rcases List.mem_append.mp hx with h | h
        · split at h
          · rcases List.mem_cons.mp h with h2 | h2
            · exact Or.inl h2
            · simp at h2
              exact Or.inl h2
          · refine Or.inr ?_
            rw [← happ]
            exact List.mem_append_left _ h
        · rcases ih h with h2 | h2
          · exact Or.inl h2
          · refine Or.inr ?_
            rw [← happ]
            exact List.mem_append_right _ h2

lemma mem_trimChars {x : Char} {cs : List Char} (hx : x ∈ trimChars cs) :
    x ∈ cs := by
  unfold trimChars at hx
  rw [List.mem_reverse] at hx
  have h1 := List.dropWhile_subset (l := (cs.dropWhile isWS).reverse) isWS hx
  rw [List.mem_reverse] at h1
  exact List.dropWhile_subset _ h1

lemma head?_dropWhile_ws {l : List Char} {c : Char}
    (h : (l.dropWhile isWS).head? = some c) : isWS c = false := by
  have := List.head?_dropWhile_not isWS l
  rw [h] at this
  exact this

lemma getLast?_of_suffix {y z : List Char} (h : y <:+ z) (hy : y ≠ []) :
    z.getLast? = y.getLast? := by
  obtain ⟨t, rfl⟩ := h
  rw [List.getLast?_append]
  cases hyl : y.getLast? with
  | none =>
    exact absurd (by simpa using hyl) hy
  | some a => simp

/-- Claim C9: cleanResponseFormatting returns a character list with no
asterisk and with no leading or trailing whitespace, and returns the empty
list on the empty (falsy) input. -/
theorem cleanResponseFormatting_clean (s : List Char) :
    '*' ∉ cleanResponseFormatting s ∧
    (∀ c, (cleanResponseFormatting s).head? = some c → isWS c = false) ∧
    (∀ c, (cleanResponseFormatting s).getLast? = some c → isWS c = false) ∧
    cleanResponseFormatting [] = [] := by
  by_cases hs : s = []
  · subst hs
    refine ⟨by simp [cleanResponseFormatting], ?_, ?_, rfl⟩ <;>
      · intro c hc
        simp [cleanResponseFormatting] at hc
  · unfold cleanResponseFormatting
    rw [if_neg hs]
    refine ⟨?_, ?_, ?_, rfl⟩
    · intro hmem
      have h1 := mem_trimChars hmem
      rcases mem_collapseNlAux h1 with h2 | h2
      · exact absurd h2 (by decide)
      · rcases mem_mapLines stripListMarker_subset h2 with h3 | h3
        · exact absurd h3 (by decide)
        · rcases mem_mapLines stripHeading_subset h3 with h4 | h4
          · exact absurd h4 (by decide)
          · have := List.of_mem_filter h4
            simp at this
    · intro c hc
      unfold trimChars at hc
      rw [List.head?_reverse] at hc
      set y := ((collapseNl (mapLines stripListMarker (mapLines stripHeading
        (s.filter (fun c => !(c == '*')))))).dropWhile isWS) with hy
      have hyne : y.reverse.dropWhile isWS ≠ [] := by
        intro hnil
        rw [hnil] at hc
        simp at hc
      have hsfx : y.reverse.dropWhile isWS <:+ y.reverse :=
        List.dropWhile_suffix _
      have hlast : y.reverse.getLast? = some c := by
        rw [getLast?_of_suffix hsfx hyne]
        exact hc
      rw [List.getLast?_reverse] at hlast
      exact head?_dropWhile_ws hlast
    · intro c hc
      unfold trimChars at hc
      rw [List.getLast?_reverse] at hc
      exact head?_dropWhile_ws hc

/-- Witness for C9 at a concrete input with asterisks and surrounding
whitespace. -/
theorem cleanResponseFormatting_clean_witness :
    '*' ∉ cleanResponseFormatting [' ', '*', 'o', 'k', '*', ' '] ∧
    isWS 'o' = false ∧ isWS 'k' = false :=
  ⟨(cleanResponseFormatting_clean [' ', '*', 'o', 'k', '*', ' ']).1,
   (cleanResponseFormatting_clean [' ', '*', 'o', 'k', '*', ' ']).2.1 'o' (by decide),
   (cleanResponseFormatting_clean [' ', '*', 'o', 'k', '*', ' ']).2.2.1 'k' (by decide)⟩

/-- From interview-prep-section.tsx: wordCount, the number of non-empty
whitespace-separated words of the trimmed job description
(jobRequirement.trim().split on whitespace runs, filtering empty pieces). -/
def wordCount (s : List Char) : Nat :=
  ((splitPred isWS (trimChars s)).filter (fun w => w ≠ [])).length

/-- From the AnalysisResult interface of interview-prep-section.tsx: the
ats_status object. -/
structure AnalysisAtsStatus where
  level : String
  label : String
  color : String
deriving Repr, DecidableEq

/-- From the AnalysisResult interface: the keyword_analysis object, with
keyword_density as a string-keyed number map. -/
structure AnalysisKeywordAnalysis where
  matching_keywords : List String
  missing_keywords : List String
  keyword_density : List (String × ℚ)
  total_job_keywords : ℚ
  total_matched : ℚ
  match_percentage : ℚ
deriving Repr, DecidableEq

/-- From the AnalysisResult interface: one skill gap entry, with importance
typed as a plain string. -/
structure AnalysisSkillGap where
  skill : String
  importance : String
  resources : List String
deriving Repr, DecidableEq

/-- From the AnalysisResult interface: the object wrapping the gap list
under a nested skill_gaps key. -/
structure AnalysisSkillGaps where
  skill_gaps : List AnalysisSkillGap
deriving Repr, DecidableEq

/-- From the AnalysisResult interface of interview-prep-section.tsx. -/
structure AnalysisResult where
  score : ℚ
  summary : String
  ats_status : AnalysisAtsStatus
  score_breakdown : ScoreBreakdown
  keyword_analysis : AnalysisKeywordAnalysis
  recommendations : List String
  skill_gaps : AnalysisSkillGaps
deriving Repr, DecidableEq

/-- The component state of AnalysisSection that the analyze handler reads
and writes. -/
structure AnalysisSectionState where
  jobRequirement : List Char
  analysisResult : Option AnalysisResult
  isAnalyzing : Bool
deriving Repr, DecidableEq

/-- The observable outcome of the synchronous prefix of handleAnalyze: a
warning toast with an early return, or a network request. -/
inductive AnalyzeAction where
  | shortJobToast
  | emptyJobToast
  | request (body : List Char)
deriving Repr, DecidableEq

/-- From interview-prep-section.tsx: the synchronous decision prefix of
handleAnalyze.  Below 50 words it returns early with a warning toast and an
unchanged state; with an empty trimmed text it returns early with a toast;
otherwise it clears the previous result, sets isAnalyzing and issues the
request with the trimmed job description. -/
def handleAnalyzeStep (st : AnalysisSectionState) :
    AnalyzeAction × AnalysisSectionState :=
  let currentJD := trimChars st.jobRequirement
  if wordCount st.jobRequirement < 50 then (.shortJobToast, st)
  else if currentJD = [] then (.emptyJobToast, st)
  else (.request currentJD, { st with isAnalyzing := true, analysisResult := none })

/-- From interview-prep-section.tsx: the disabled condition of the Analyze
button. -/
def analyzeButtonDisabled (st : AnalysisSectionState) : Bool :=
  st.isAnalyzing || decide (wordCount st.jobRequirement < 50)

/-- Claim C8: for a job description below 50 whitespace-separated words,
handleAnalyze returns early with only a warning toast, issuing no request
and leaving the state (hence the stored analysis result) unchanged, and the
Analyze button is disabled; a request can only be issued when the word count
is at least 50. -/
theorem handleAnalyze_word_count_gate (st : AnalysisSectionState) :
    (wordCount st.jobRequirement < 50 →
      handleAnalyzeStep st = (AnalyzeAction.shortJobToast, st) ∧
      analyzeButtonDisabled st = true) ∧
    (∀ body st2, handleAnalyzeStep st = (AnalyzeAction.request body, st2) →
      50 ≤ wordCount st.jobRequirement) := by
  constructor
  · intro h
    constructor
    · simp only [handleAnalyzeStep]
      rw [if_pos h]
    · simp [analyzeButtonDisabled, h]
  · intro body st2 heq
    by_contra hge
    push_neg at hge
    simp only [handleAnalyzeStep] at heq
    rw [if_pos hge] at heq
    simp at heq

/-- A fifty-word job description used by the C8 witness. -/
def fiftyWords : List Char :=
  List.intercalate [' '] (List.replicate 50 ['r', 'e', 'q'])

set_option maxRecDepth 8000 in
/-- Witness for C8: a nine-character, two-word description short-circuits
with the state unchanged and the button disabled, and a request does get
issued for a fifty-word description, so the bound is reached. -/
theorem handleAnalyze_word_count_gate_witness :
    (handleAnalyzeStep ⟨['t', 'o', 'o', ' ', 's', 'h', 'o', 'r', 't'], none, false⟩ =
        (AnalyzeAction.shortJobToast,
          ⟨['t', 'o', 'o', ' ', 's', 'h', 'o', 'r', 't'], none, false⟩) ∧
      analyzeButtonDisabled
        ⟨['t', 'o', 'o', ' ', 's', 'h', 'o', 'r', 't'], none, false⟩ = true) ∧
    50 ≤ wordCount fiftyWords :=
  ⟨(handleAnalyze_word_count_gate
      ⟨['t', 'o', 'o', ' ', 's', 'h', 'o', 'r', 't'], none, false⟩).1 (by decide),
   (handleAnalyze_word_count_gate ⟨fiftyWords, none, false⟩).2 fiftyWords
     ⟨fiftyWords, none, true⟩ (by decide)⟩

/-- Encoding of one frontend skill gap entry. -/
def encodeAnalysisSkillGap (g : AnalysisSkillGap) : Json :=
  .obj [("skill", .str g.skill),
        ("importance", .str g.importance),
        ("resources", encodeStrList g.resources)]

/-- JSON.stringify of an AnalysisResult, modelled at the JSON value level
following the AnalysisResult interface field by field. -/
def encodeAnalysisResult (r : AnalysisResult) : Json :=
  .obj [("score", .num r.score),
        ("summary", .str r.summary),
        ("ats_status", .obj [("level", .str r.ats_status.level),
                             ("label", .str r.ats_status.label),
                             ("color", .str r.ats_status.color)]),
        ("score_breakdown", encodeScoreBreakdown r.score_breakdown),
        ("keyword_analysis",
          .obj [("matching_keywords", encodeStrList r.keyword_analysis.matching_keywords),
                ("missing_keywords", encodeStrList r.keyword_analysis.missing_keywords),
                ("keyword_density", .obj (r.keyword_analysis.keyword_density.map
                  (fun p => (p.1, Json.num p.2)))),
                ("total_job_keywords", .num r.keyword_analysis.total_job_keywords),
                ("total_matched", .num r.keyword_analysis.total_matched),
                ("match_percentage", .num r.keyword_analysis.match_percentage)]),
        ("recommendations", encodeStrList r.recommendations),
        ("skill_gaps", .obj [("skill_gaps",
          .arr (r.skill_gaps.skill_gaps.map encodeAnalysisSkillGap))])]

/-- Decoding of a JSON array of strings. -/
def decodeStrList : List Json → Option (List String)
  | [] => some []
  | .str s :: t => (decodeStrList t).map (fun l => s :: l)
  | _ => none

/-- Decoding of a string-keyed number map. -/
def decodeDensity : List (String × Json) → Option (List (String × ℚ))
  | [] => some []
  | (k, .num q) :: t => (decodeDensity t).map (fun l => (k, q) :: l)
  | _ => none

/-- Decoding of one frontend skill gap entry. -/
def decodeAnalysisSkillGap : Json → Option AnalysisSkillGap
  | .obj [("skill", .str s), ("importance", .str i), ("resources", .arr rs)] =>
    (decodeStrList rs).map (fun l => ⟨s, i, l⟩)
  | _ => none

/-- Decoding of the gap list. -/
def decodeGapList : List Json → Option (List AnalysisSkillGap)
  | [] => some []
  | j :: t =>
    match decodeAnalysisSkillGap j, decodeGapList t with
    | some g, some l => some (g :: l)
    | _, _ => none

/-- Decoding of the ats_status object. -/
def decodeAtsStatus : Json → Option AnalysisAtsStatus
  | .obj [("level", .str lv), ("label", .str lb), ("color", .str co)] =>
    some ⟨lv, lb, co⟩
  | _ => none

/-- Decoding of the score_breakdown object. -/
def decodeScoreBreakdown : Json → Option ScoreBreakdown
  | .obj [("skill_match", .num a), ("semantic_similarity", .num b),
          ("keyword_density_bonus", .num c)] =>
    some ⟨a, b, c⟩
  | _ => none

/-- Decoding of the keyword_analysis object. -/
def decodeKeywordAnalysis : Json → Option AnalysisKeywordAnalysis
  | .obj [("matching_keywords", .arr mtch), ("missing_keywords", .arr mis),
          ("keyword_density", .obj kd), ("total_job_keywords", .num tj),
          ("total_matched", .num tm), ("match_percentage", .num mp)] =>
    match decodeStrList mtch, decodeStrList mis, decodeDensity kd with
    | some mtch2, some mis2, some kd2 =>
      some ⟨mtch2, mis2, kd2, tj, tm, mp⟩
    | _, _, _ => none
  | _ => none

/-- JSON.parse of a stored AnalysisResult, modelled at the JSON value level:
the stored entry is read back into the typed record, with any shape mismatch
yielding none (the catch branch of the initializer). -/
def decodeAnalysisResult : Json → Option AnalysisResult
  | .obj [("score", .num sc),
          ("summary", .str sm),
          ("ats_status", st),
          ("score_breakdown", sb),
          ("keyword_analysis", ka),
          ("recommendations", .arr rc),
          ("skill_gaps", .obj [("skill_gaps", .arr gs)])] =>
    match decodeAtsStatus st, decodeScoreBreakdown sb, decodeKeywordAnalysis ka,
        decodeStrList rc, decodeGapList gs with
    | some st2, some sb2, some ka2, some rc2, some gs2 =>
      some { score := sc
             summary := sm
             ats_status := st2
             score_breakdown := sb2
             keyword_analysis := ka2
             recommendations := rc2
             skill_gaps := ⟨gs2⟩ }
    | _, _, _, _, _ => none
  | _ => none

/-- The localStorage key of the analysis result. -/
def ANALYSIS_RESULT_KEY : String := "ats_analysis_result"

/-- The browser localStorage, keyed by strings; stored values are modelled
as JSON values. -/
def LocalStore := String → Option Json

/-- localStorage.setItem. -/
def setItem (st : LocalStore) (k : String) (v : Json) : LocalStore :=
  fun q => if q = k then some v else st q

/-- localStorage.removeItem. -/
def removeItem (st : LocalStore) (k : String) : LocalStore :=
  fun q => if q = k then none else st q

/-- localStorage.getItem. -/
def getItem (st : LocalStore) (k : String) : Option Json := st k

/-- From interview-prep-section.tsx: the effect persisting the analysis
result, writing the serialized result under ats_analysis_result when it is
non-null and removing the key when it is null. -/
def saveAnalysisResultEffect (result : Option AnalysisResult)
    (st : LocalStore) : LocalStore :=
  match result with
  | some r => setItem st ANALYSIS_RESULT_KEY (encodeAnalysisResult r)
  | none => removeItem st ANALYSIS_RESULT_KEY

/-- From interview-prep-section.tsx: the useState initializer of
analysisResult, parsing the stored entry on mount. -/
def loadInitialAnalysisResult (st : LocalStore) : Option AnalysisResult :=
  match getItem st ANALYSIS_RESULT_KEY with
  | some j => decodeAnalysisResult j
  | none => none

lemma decodeStrList_encode (l : List String) :
    decodeStrList (l.map Json.str) = some l := by
  induction l with
  | nil => rfl
  | cons s t ih => simp [decodeStrList, ih]

lemma decodeDensity_encode (l : List (String × ℚ)) :
    decodeDensity (l.map (fun p => (p.1, Json.num p.2))) = some l := by
  induction l with
  | nil => rfl
  | cons p t ih => simp [decodeDensity, ih]

lemma decodeAnalysisSkillGap_encode (g : AnalysisSkillGap) :
    decodeAnalysisSkillGap (encodeAnalysisSkillGap g) = some g := by
  obtain ⟨s, i, rs⟩ := g
  simp [encodeAnalysisSkillGap, encodeStrList, decodeAnalysisSkillGap,
    decodeStrList_encode]

lemma decodeGapList_encode (l : List AnalysisSkillGap) :
    decodeGapList (l.map encodeAnalysisSkillGap) = some l := by
  induction l with
  | nil => rfl
  | cons g t ih => simp [decodeGapList, decodeAnalysisSkillGap_encode, ih]

lemma decodeKeywordAnalysis_encode (ka : AnalysisKeywordAnalysis) :
    decodeKeywordAnalysis (Json.obj
      [("matching_keywords", Json.arr (ka.matching_keywords.map Json.str)),
       ("missing_keywords", Json.arr (ka.missing_keywords.map Json.str)),
       ("keyword_density", Json.obj (ka.keyword_density.map
         (fun p => (p.1, Json.num p.2)))),
       ("total_job_keywords", Json.num ka.total_job_keywords),
       ("total_matched", Json.num ka.total_matched),
       ("match_percentage", Json.num ka.match_percentage)]) = some ka := by
  obtain ⟨mtch, mis, kd, tj, tm, mp⟩ := ka
  simp [decodeKeywordAnalysis, decodeStrList_encode, decodeDensity_encode]

lemma decodeAnalysisResult_encode (r : AnalysisResult) :
    decodeAnalysisResult (encodeAnalysisResult r) = some r := by
  obtain ⟨sc, sm, ⟨lv, lb, co⟩, ⟨a, b, c⟩, ka, rc, ⟨gs⟩⟩ := r
  simp [encodeAnalysisResult, encodeScoreBreakdown, encodeStrList,
    decodeAnalysisResult, decodeAtsStatus, decodeScoreBreakdown,
    decodeKeywordAnalysis_encode, decodeStrList_encode, decodeGapList_encode]

/-- Claim C10: the analysis result survives unmount and remount through the
JSON round trip: a non-null result is serialized under ats_analysis_result
(the key is removed when the result is null), and the initializer of the
next mount parses that entry back to the same result. -/
theorem analysis_result_persistence_roundtrip (r : AnalysisResult)
    (st : LocalStore) :
    getItem (saveAnalysisResultEffect (some r) st) ANALYSIS_RESULT_KEY =
      some (encodeAnalysisResult r) ∧
    loadInitialAnalysisResult (saveAnalysisResultEffect (some r) st) = some r ∧
    getItem (saveAnalysisResultEffect none st) ANALYSIS_RESULT_KEY = none := by
  refine ⟨?_, ?_, ?_⟩
  · simp [getItem, saveAnalysisResultEffect, setItem]
  · simp [loadInitialAnalysisResult, getItem, saveAnalysisResultEffect, setItem,
      decodeAnalysisResult_encode]
  · simp [getItem, saveAnalysisResultEffect, removeItem]

end HireAI
